import Mathlib

set_option maxHeartbeats 1000000

/- Shallow embedding of the GeoH3Index geospatial scalar index
   (internal/core/src/index/H3Index.cpp / H3Index.h).

   Modelling conventions:
   - machine integers are Nat (unsigned) or Int (signed) with explicit truncation
     where the code narrows;
   - std::unordered_map is an association list with unique keys by construction,
     std::unordered_set a first-occurrence deduplicated list (their iteration order
     is unspecified, which matches the spec);
   - a std::vector written through operator[] without a resize keeps its size:
     the written entries are recorded separately from the size, size-bounded
     iteration (range-for) sees only the sized prefix, and an element read
     returns the last written value (empty when never written);
   - the external H3 and OGR/GDAL libraries are a structure of pure functions
     (GeoLibs); WKB decoding (OGRGeometryFactory::createFromWkb) yields an
     optional decoded geometry, none standing for the null geometry pointer;
   - C++ exceptions thrown by AssertInfo / PanicInfo are an Except error;
     failures that are undefined behaviour in the source (dereferencing the null
     OGRPoint scratch pointer, reading past a serialized buffer, a loop that can
     never exit) are distinguished error values. -/

/-- Outcomes of the failure paths of the index code: AssertInfo / PanicInfo
throws, plus the undefined-behaviour paths named above. -/
inductive GeoErr
  | assertFail
  | notBuilt
  | outOfRange
  | notImplemented
  | nullDeref
  | corruptRead
  | divergence
  deriving DecidableEq, Repr

/-- Decoded OGR geometry as far as GeoH3Index inspects it: a point, a line
string with its vertex list, a polygon with exterior ring and holes, or any
other geometry kind (the default branch of getRepresentH3Index). Coordinates
are opaque pass-through values. -/
inductive Geometry
  | point (x y : Int)
  | lineString (pts : List (Int × Int))
  | polygon (exterior : List (Int × Int)) (holes : List (List (Int × Int)))
  | other
  deriving DecidableEq, Repr

/-- The GeoPolygon value marshalled for polygonToCells: exterior loop plus
holes. -/
structure GeoPolygon where
  exterior : List (Int × Int)
  holes : List (List (Int × Int))
  deriving DecidableEq, Repr

/-- External collaborators of H3Index.cpp: the H3 cell library and OGR WKB
decoding, as a record of pure functions. Functions returning an H3Error in C
are modelled as returning the error code (a Nat, 0 = E_SUCCESS) together with
the out-parameter value. -/
structure GeoLibs where
  createFromWkb : String → Option Geometry
  latLngToCell : Int × Int → Int → Nat
  isValidCell : Nat → Bool
  cellToParent : Nat → Int → Nat × Nat
  getResolution : Nat → Int
  cellToChildrenSize : Nat → Int → Nat × Nat
  cellToChildren : Nat → Int → Nat × List Nat
  maxPolygonToCellsSize : GeoPolygon → Int → Nat × Nat
  polygonToCells : GeoPolygon → Int → Nat × List Nat

/-- Modelled from the spec: the milvus ErrorCode enum of common/EasyAssert.h is
not under src/; its success value, written Success in the source, is the zero
error code. Several asserts in H3Index.cpp read AssertInfo(err = Success, ...):
the assignment stores this value into err and the asserted condition is that
stored value, so the assert condition is zero, i.e. false. -/
def milvusSuccess : Nat := 0

/-- Truncation of a C int implicitly converted to uint64_t (the first argument
of cellToChildren receives the int rep_res). -/
def intToU64 (i : Int) : Nat := (i % ((2 : Int) ^ 64)).toNat

/-- A std::vector written through operator[] possibly without a resize: the
writes land in the buffer without changing the vector size. -/
structure RawVec where
  writes : List (Nat × String)
  vsize : Nat
  deriving DecidableEq, Repr

/-- Element read raw_data_[o]: the last value written at o, empty if never
written. -/
def rawLookup (r : RawVec) (o : Nat) : String :=
  match r.writes.find? (fun p => p.1 == o) with
  | some p => p.2
  | none => ""

/-- Element write raw_data_[o] = s (std::vector::operator[] does not grow the
vector). -/
def rawWrite (r : RawVec) (o : Nat) (s : String) : RawVec :=
  ⟨(o, s) :: r.writes, r.vsize⟩

/-- raw_data_.resize(n). -/
def rawResize (r : RawVec) (n : Nat) : RawVec :=
  ⟨r.writes, n⟩

/-- Range-for over the vector: only the sized prefix is visible. -/
def rawIter (r : RawVec) : List String :=
  (List.range r.vsize).map (rawLookup r)

/-- The fields of one GeoH3Index object (H3Index.h). index_data_ maps an H3
cell to the ordered list of row offsets stored under it. -/
structure IndexState where
  is_built_ : Bool
  index_data_ : List (Nat × List Nat)
  raw_data_ : RawVec
  resolution_ : Int
  total_num_rows_ : Nat
  null_offsets_ : List Nat
  deriving DecidableEq, Repr

/-- A freshly constructed GeoH3Index with the given max resolution. -/
def freshIndex (res : Int) : IndexState :=
  ⟨false, [], ⟨[], 0⟩, res, 0, []⟩

/-- index_data_.find(c) then dereference: the offset list stored under cell c,
empty when the cell is absent. -/
def lookupCell (m : List (Nat × List Nat)) (c : Nat) : List Nat :=
  match m.find? (fun p => p.1 == c) with
  | some p => p.2
  | none => []

/-- index_data_.find(c) != end(). -/
def findCell (m : List (Nat × List Nat)) (c : Nat) : Bool :=
  (m.find? (fun p => p.1 == c)).isSome

/-- The Build update of index_data_: push offset o onto the list of cell c if
present, else insert the singleton list (keys stay unique). -/
def addOffset : List (Nat × List Nat) → Nat → Nat → List (Nat × List Nat)
  | [], c, o => [(c, [o])]
  | p :: rest, c, o =>
      if p.1 == c then (p.1, p.2 ++ [o]) :: rest else p :: addOffset rest c o

/-- The DeserializeIndexData update for the first offset of a cell record:
index_data_[cell] = a fresh singleton vector (replacing any previous list). -/
def setCellFresh : List (Nat × List Nat) → Nat → Nat → List (Nat × List Nat)
  | [], c, o => [(c, [o])]
  | p :: rest, c, o =>
      if p.1 == c then (p.1, [o]) :: rest else p :: setCellFresh rest c o

/-- Total multiplicity of offset o across all the offset lists of the map. -/
def cellOcc (m : List (Nat × List Nat)) (o : Nat) : Nat :=
  (m.map (fun p => p.2.count o)).sum

/-- One pass of the set reduction in getRepresentH3Index: replace every cell by
cellToParent at the one-lower resolution (the returned error code is ignored
there, only isValidCell is asserted on each parent). -/
def parentsOf (lib : GeoLibs) (res : Int) : List Nat → Except GeoErr (List Nat)
  | [] => .ok []
  | v :: rest =>
      let parent := (lib.cellToParent v res).2
      if lib.isValidCell parent then
        (parentsOf lib res rest).map (fun l => parent :: l)
      else .error .assertFail

/-- The while (out.size() != 1) reduction of getRepresentH3Index: repeatedly
replace the cell set by the set of parents one resolution lower. The C++ loop
has no other exit, so an empty starting set never terminates; the fuel models
that as a divergence error. The unordered_set is a deduplicated list. -/
def reduceSetToOne (lib : GeoLibs) : Nat → Int → List Nat → Except GeoErr Nat
  | 0, _, _ => .error .divergence
  | fuel + 1, res, out =>
      if out.length == 1 then .ok (out.headD 0)
      else do
        let parents ← parentsOf lib (res - 1) out
        reduceSetToOne lib fuel (res - 1) parents.eraseDups

/-- GeoH3Index::getRepresentH3Index (H3Index.cpp lines 227-334). The argument
is the OGRGeometry pointer produced by createFromWkb, none for null. The line
string and polygon branches copy each ring/vertex through
geoptr getPoint(i, point) where point is the null OGRPoint scratch pointer
declared as OGRPoint* point{nullptr}; the first vertex read therefore
dereferences the null pointer, modelled as the nullDeref error. The polygon
branch additionally asserts AssertInfo(err = Success, ...) on the
polygonToCells result: the assignment makes the asserted condition
milvusSuccess, which is zero, so when the vertex loops are empty the branch
still throws. -/
def getRepresentH3Index (lib : GeoLibs) (res : Int) :
    Option Geometry → Except GeoErr Nat
  | none => .error .assertFail
  | some (.point x y) =>
      let c := lib.latLngToCell (x, y) res
      if lib.isValidCell c then .ok c else .error .assertFail
  | some (.lineString pts) =>
      if 0 < pts.length then .error .nullDeref
      else reduceSetToOne lib (res.toNat + 17) res []
  | some (.polygon ext holes) =>
      if 0 < ext.length ∨ holes.any (fun h => 0 < h.length) then
        .error .nullDeref
      else
        let _ := lib.maxPolygonToCellsSize ⟨ext, holes⟩ res
        let pc := lib.polygonToCells ⟨ext, holes⟩ res
        if milvusSuccess != 0 then
          reduceSetToOne lib (res.toNat + 17) res pc.2.eraseDups
        else .error .assertFail
  | some .other => .error .notImplemented

/-- Decode one WKB value and derive its representative cell, as done per row in
Build and per query in In / NotIn: createFromWkb followed by
getRepresentH3Index (whose first assert catches the null geometry). -/
def decodeAndRepresent (lib : GeoLibs) (res : Int) (v : String) :
    Except GeoErr Nat :=
  getRepresentH3Index lib res (lib.createFromWkb v)

/-- The per-offset loop of GeoH3Index::Build (lines 339-356): empty input rows
go to null_offsets_, the others get a representative cell, the offset is
appended under it and the raw bytes stored at raw_data_[offset]. On a per-row
failure the C++ exception propagates, leaving the object with the updates of
the rows already processed: the state at the error is returned alongside it. -/
def buildLoop (lib : GeoLibs) :
    IndexState → Nat → List String → IndexState × Option GeoErr
  | st, _, [] => (st, none)
  | st, off, v :: rest =>
      if v = "" then
        buildLoop lib
          { st with null_offsets_ := st.null_offsets_ ++ [off] } (off + 1) rest
      else
        match decodeAndRepresent lib st.resolution_ v with
        | .error e => (st, some e)
        | .ok cell =>
            buildLoop lib
              { st with
                index_data_ := addOffset st.index_data_ cell off,
                raw_data_ := rawWrite st.raw_data_ off v } (off + 1) rest

/-- GeoH3Index::Build(size_t n, const std::string* values) (lines 337-359): the
row loop, then is_built_ = true and total_num_rows_ = n. There is no
is_built_ precondition check. -/
def geoBuild (lib : GeoLibs) (st : IndexState) (values : List String) :
    IndexState × Option GeoErr :=
  match buildLoop lib st 0 values with
  | (st1, none) =>
      ({ st1 with is_built_ := true, total_num_rows_ := values.length }, none)
  | (st1, some e) => (st1, some e)

/-- The declared element type of one FieldData batch, as far as
BuildWithFieldData inspects it. -/
inductive DataType
  | GEOSPATIAL
  | OTHER
  deriving DecidableEq, Repr

/-- One FieldData batch: its data type and its rows as (is_valid, data)
pairs. -/
structure FieldBatch where
  dtype : DataType
  rows : List (Bool × String)
  deriving DecidableEq, Repr

/-- The batch flattening of GeoH3Index::BuildWithFieldData (lines 181-198):
batches whose data type is not GEOSPATIAL are skipped with only a warning log;
rows of geospatial batches map to their data, or to the empty string when the
null flag is set. -/
def collectFieldDatas : List FieldBatch → List String
  | [] => []
  | b :: rest =>
      if b.dtype = DataType.GEOSPATIAL then
        b.rows.map (fun r => if r.1 then r.2 else "") ++ collectFieldDatas rest
      else collectFieldDatas rest

/-- GeoH3Index::BuildWithFieldData: flatten all batches then delegate to
Build. -/
def buildWithFieldData (lib : GeoLibs) (st : IndexState)
    (batches : List FieldBatch) : IndexState × Option GeoErr :=
  geoBuild lib st (collectFieldDatas batches)

/-- GeoH3Index::Build(const Config&) (lines 361-374): if is_built_ it returns
at once; otherwise it asserts that insert_files is present in the config,
loads the batches through the external file manager (passed here as the
batches argument) and delegates to BuildWithFieldData. -/
def buildFromConfig (lib : GeoLibs) (st : IndexState)
    (insert_files_present : Bool) (batches : List FieldBatch) :
    IndexState × Option GeoErr :=
  if st.is_built_ then (st, none)
  else if insert_files_present then buildWithFieldData lib st batches
  else (st, some .assertFail)

/-- Little-endian bytes of a uint32_t as memcpy writes them. -/
def u32le (v : Nat) : List Nat :=
  [v % 256, v / 256 % 256, v / 256 ^ 2 % 256, v / 256 ^ 3 % 256]

/-- Little-endian bytes of a uint64_t / size_t as memcpy writes them. -/
def u64le (v : Nat) : List Nat :=
  [v % 256, v / 256 % 256, v / 256 ^ 2 % 256, v / 256 ^ 3 % 256,
   v / 256 ^ 4 % 256, v / 256 ^ 5 % 256, v / 256 ^ 6 % 256, v / 256 ^ 7 % 256]

/-- Payload bytes of a stored WKB string (test payloads are plain byte
characters, so the byte count equals the string length used for wkb_size). -/
def strBytes (s : String) : List Nat :=
  s.toList.map Char.toNat

/-- The inverse used when DeserializeIndexData stores parsed bytes back into a
std::string. -/
def bytesToStr (l : List Nat) : String :=
  String.mk (l.map Char.ofNat)

/-- GeoH3Index::GetIndexDataSize (lines 53-67): per map cell 8 bytes of cell id
plus 4 bytes of list length plus 4 bytes per stored offset, then per element of
the raw_data_ vector 4 bytes of size plus the payload. The second loop is a
range-for, so it sees only raw_data_.size() elements. -/
def getIndexDataSize (st : IndexState) : Nat :=
  (st.index_data_.map (fun p => 8 + 4 + p.2.length * 4)).sum
    + ((rawIter st.raw_data_).map (fun s => 4 + s.length)).sum

/-- The bytes SerializeIndexData (lines 131-152) emits for one map entry: cell
id, list length, then per offset the offset, the wkb byte size and the wkb
payload read from raw_data_[offset]. -/
def serializeCellEntry (st : IndexState) (p : Nat × List Nat) : List Nat :=
  u64le p.1 ++ u32le p.2.length
    ++ (p.2.map (fun o =>
          u32le o ++ u32le (rawLookup st.raw_data_ o).length
            ++ strBytes (rawLookup st.raw_data_ o))).flatten

/-- The full byte stream GeoH3Index::SerializeIndexData writes through its
unchecked data_ptr, cell after cell. -/
def serializeIndexData (st : IndexState) : List Nat :=
  (st.index_data_.map (serializeCellEntry st)).flatten

/-- The three keyed buffers of the serialized index: INDEX_DATA,
INDEX_NULL_OFFSETS and INDEX_NUM_ROWS. -/
structure BinarySetM where
  indexData : List Nat
  nullOffsets : List Nat
  numRows : List Nat
  deriving DecidableEq, Repr

/-- A heap buffer of n bytes receiving a byte stream: writes past the
allocation are lost, bytes never written are modelled as zero. -/
def padTake (l : List Nat) (n : Nat) : List Nat :=
  l.take n ++ List.replicate (n - l.length) 0

/-- GeoH3Index::Serialize (lines 156-178): asserts is_built_, sizes the
INDEX_DATA buffer with GetIndexDataSize, writes the stream into it, then emits
the null offsets (8 bytes each) and the 8-byte row count. The external
Disassemble call (common/Slice.h, outside src/) shards the keyed buffers
content-preservingly per the spec and is omitted. -/
def geoSerialize (st : IndexState) : Except GeoErr BinarySetM :=
  if st.is_built_ then
    .ok
      ⟨padTake (serializeIndexData st) (getIndexDataSize st),
       (st.null_offsets_.map u64le).flatten,
       u64le st.total_num_rows_⟩
  else .error .notBuilt

/-- Bounds-checked byte-slice read: the C++ parser reads through raw pointers
with no check, so a read past the buffer end is undefined behaviour, modelled
as the corruptRead error. -/
def readBytes (bs : List Nat) (pos n : Nat) : Except GeoErr (List Nat) :=
  if pos + n ≤ bs.length then .ok ((bs.drop pos).take n) else .error .corruptRead

/-- Little-endian value of a byte list. -/
def leVal (bytes : List Nat) : Nat :=
  bytes.foldr (fun b acc => b + 256 * acc) 0

/-- Read of a uint32_t at pos. -/
def readU32 (bs : List Nat) (pos : Nat) : Except GeoErr Nat :=
  (readBytes bs pos 4).map leVal

/-- Read of a uint64_t / size_t / H3Index at pos. -/
def readU64 (bs : List Nat) (pos : Nat) : Except GeoErr Nat :=
  (readBytes bs pos 8).map leVal

/-- Split a byte buffer into consecutive 8-byte little-endian values (an
incomplete tail is unreadable). -/
def parseU64s : List Nat → List Nat
  | b0 :: b1 :: b2 :: b3 :: b4 :: b5 :: b6 :: b7 :: rest =>
      leVal [b0, b1, b2, b3, b4, b5, b6, b7] :: parseU64s rest
  | _ => []

/-- The inner loop of DeserializeIndexData over the vector_size offsets of one
cell record: at i = 0 the cell entry is replaced by a fresh singleton vector,
afterwards offsets are appended; each offset also restores
raw_data_[offset]. -/
def deserializeEntries (bs : List Nat) (cell : Nat) :
    Nat → Bool → Nat → IndexState → Except GeoErr (Nat × IndexState)
  | 0, _, pos, st => .ok (pos, st)
  | k + 1, first, pos, st => do
      let off ← readU32 bs pos
      let st1 :=
        if first then { st with index_data_ := setCellFresh st.index_data_ cell off }
        else { st with index_data_ := addOffset st.index_data_ cell off }
      let wsz ← readU32 bs (pos + 4)
      let wbytes ← readBytes bs (pos + 8) wsz
      let st2 :=
        { st1 with raw_data_ := rawWrite st1.raw_data_ off (bytesToStr wbytes) }
      deserializeEntries bs cell k false (pos + 8 + wsz) st2

/-- The outer while (pos < index_length) loop of DeserializeIndexData: read a
cell id and list length, then the offsets. The position grows by at least 12
per iteration, so len + 1 units of fuel can never run out. -/
def deserializeCells (bs : List Nat) (len : Nat) :
    Nat → Nat → IndexState → Except GeoErr IndexState
  | 0, _, _ => .error .divergence
  | fuel + 1, pos, st =>
      if pos < len then do
        let cell ← readU64 bs pos
        let vsz ← readU32 bs (pos + 8)
        let r ← deserializeEntries bs cell vsz true (pos + 12) st
        deserializeCells bs len fuel r.1 r.2
      else .ok st

/-- GeoH3Index::DeserializeIndexData (lines 69-102): resize raw_data_ to
total_num_rows_, then parse the cell records of the INDEX_DATA buffer. -/
def deserializeIndexDataM (st : IndexState) (bs : List Nat) (len : Nat) :
    Except GeoErr IndexState :=
  deserializeCells bs len (len + 1) 0
    { st with raw_data_ := rawResize st.raw_data_ st.total_num_rows_ }

/-- GeoH3Index::LoadWithoutAssemble (lines 110-128): read total_num_rows_ from
INDEX_NUM_ROWS, memcpy the INDEX_NULL_OFFSETS bytes into null_offsets_.data()
— the vector is never resized, so only its existing size() elements are
observable and a fresh index keeps an empty null set —, deserialize INDEX_DATA
and set is_built_. -/
def loadWithoutAssemble (st : IndexState) (bs : BinarySetM) :
    Except GeoErr IndexState := do
  let total ← readU64 bs.numRows 0
  let srcNulls := parseU64s bs.nullOffsets
  let nulls :=
    srcNulls.take st.null_offsets_.length ++ st.null_offsets_.drop srcNulls.length
  let st1 := { st with total_num_rows_ := total, null_offsets_ := nulls }
  let st2 ← deserializeIndexDataM st1 bs.indexData bs.indexData.length
  .ok { st2 with is_built_ := true }

/-- GeoH3Index::IsNull (lines 479-487): all-false bitmap of total_num_rows_
bits with the null offsets set. -/
def geoIsNull (st : IndexState) : Except GeoErr (List Bool) :=
  if st.is_built_ then
    .ok (st.null_offsets_.foldl (fun bm o => bm.set o true)
      (List.replicate st.total_num_rows_ false))
  else .error .notBuilt

/-- GeoH3Index::IsNotNull (lines 489-497): all-true bitmap with the null
offsets cleared. -/
def geoIsNotNull (st : IndexState) : Except GeoErr (List Bool) :=
  if st.is_built_ then
    .ok (st.null_offsets_.foldl (fun bm o => bm.set o false)
      (List.replicate st.total_num_rows_ true))
  else .error .notBuilt

/-- GeoH3Index::Reverse_Lookup (lines 513-518): asserts is_built_ and
offset < total_num_rows_, then returns raw_data_[offset]. -/
def reverseLookup (st : IndexState) (offset : Nat) : Except GeoErr String :=
  if st.is_built_ then
    if offset < st.total_num_rows_ then .ok (rawLookup st.raw_data_ offset)
    else .error .outOfRange
  else .error .notBuilt

/-- The ancestor loop of In / NotIn (lines 390-401 and 441-452): for cur_res
from rep_res down to 0, look up cellToParent(rep_index, cur_res) in the map and
collect its offsets. The fuel argument is cur_res + 1, so fuel k + 1 runs the
body at cur_res = k. Directly after the cellToParent call the code runs
AssertInfo(err = Success, ...): the assignment stores milvusSuccess into err
and asserts that stored zero value, so whenever the body runs the assert
throws before the map is consulted. -/
def inParentLoop (lib : GeoLibs) (st : IndexState) (rep_index : Nat) :
    Nat → Except GeoErr (List Nat)
  | 0 => .ok []
  | k + 1 =>
      let pr := lib.cellToParent rep_index (Int.ofNat k)
      if milvusSuccess != 0 then
        (inParentLoop lib st rep_index k).map
          (fun rest => lookupCell st.index_data_ pr.2 ++ rest)
      else .error .assertFail

/-- The descendant loop of In / NotIn (lines 404-424 and 454-474): for cur_res
from rep_res + 1 up to resolution_, take cellToChildrenSize(rep_index,
cur_res), then enumerate cellToChildren — whose first argument in the source is
rep_res, the int resolution implicitly converted to an H3Index, not rep_index —
and collect the offsets of every child present in the map. Both error codes
here are compared (==) against the success value. -/
def inChildLoop (lib : GeoLibs) (st : IndexState) (rep_index : Nat)
    (rep_res : Int) : Int → Nat → Except GeoErr (List Nat)
  | _, 0 => .ok []
  | cur_res, k + 1 =>
      let szr := lib.cellToChildrenSize rep_index cur_res
      if szr.1 == milvusSuccess then
        let chr := lib.cellToChildren (intToU64 rep_res) cur_res
        if chr.1 == milvusSuccess then
          (inChildLoop lib st rep_index rep_res (cur_res + 1) k).map
            (fun rest =>
              (chr.2.map (lookupCell st.index_data_)).flatten ++ rest)
        else .error .assertFail
      else .error .assertFail

/-- The per-query body shared verbatim by In and NotIn: decode the query WKB,
derive its representative cell and resolution, then walk the ancestor and
descendant loops; the returned offsets are exactly the positions the two
functions set respectively clear. -/
def collectQuery (lib : GeoLibs) (st : IndexState) (v : String) :
    Except GeoErr (List Nat) := do
  let rep ← decodeAndRepresent lib st.resolution_ v
  let rep_res := lib.getResolution rep
  let parents ← inParentLoop lib st rep (rep_res + 1).toNat
  let children ←
    inChildLoop lib st rep rep_res (rep_res + 1) (st.resolution_ - rep_res).toNat
  .ok (parents ++ children)

/-- Write the bit value b at every collected offset (TargetBitmap::set; an
offset beyond the bitmap is undefined behaviour in the source and leaves the
modelled bitmap unchanged). -/
def setAll (bm : List Bool) (offs : List Nat) (b : Bool) : List Bool :=
  offs.foldl (fun acc o => acc.set o b) bm

/-- The query loop of In / NotIn over the n query values, writing bit value b
at every candidate offset of every query. -/
def inQueries (lib : GeoLibs) (st : IndexState) (b : Bool) :
    List Bool → List String → Except GeoErr (List Bool)
  | bm, [] => .ok bm
  | bm, v :: rest => do
      let offs ← collectQuery lib st v
      inQueries lib st b (setAll bm offs b) rest

/-- GeoH3Index::In (lines 378-427): asserts is_built_, starts from an all-false
bitmap of total_num_rows_ bits and sets every candidate offset. -/
def geoIn (lib : GeoLibs) (st : IndexState) (values : List String) :
    Except GeoErr (List Bool) :=
  if st.is_built_ then
    inQueries lib st true (List.replicate st.total_num_rows_ false) values
  else .error .notBuilt

/-- GeoH3Index::NotIn (lines 429-477): asserts is_built_, starts from an
all-true bitmap and clears the same candidate offsets. -/
def geoNotIn (lib : GeoLibs) (st : IndexState) (values : List String) :
    Except GeoErr (List Bool) :=
  if st.is_built_ then
    inQueries lib st false (List.replicate st.total_num_rows_ true) values
  else .error .notBuilt

/-- A small concrete instance of the external libraries used by the witnesses
and counterexamples: the WKB string P1 decodes to a point, L1 to a two-vertex
line string, anything else fails to decode; latLngToCell answers a valid cell
at the requested resolution. -/
def libTest : GeoLibs :=
  ⟨fun s =>
      if s = "P1" then some (Geometry.point 3 4)
      else if s = "L1" then some (Geometry.lineString [(3, 4), (4, 4)])
      else none,
   fun _ r => 100 + intToU64 r,
   fun c => 100 ≤ c,
   fun c _ => (0, c),
   fun _ => 9,
   fun _ _ => (0, 0),
   fun _ _ => (0, []),
   fun _ _ => (0, 0),
   fun _ _ => (0, [])⟩

/-- A one-row index built from the single point row P1. -/
def stP1 : IndexState :=
  (geoBuild libTest (freshIndex 9) ["P1"]).1

/-- A two-row index built from two null (empty) rows. -/
def stNulls2 : IndexState :=
  (geoBuild libTest (freshIndex 9) ["", ""]).1

/-- A two-row index built from a null row followed by the point row P1. -/
def stNP : IndexState :=
  (geoBuild libTest (freshIndex 9) ["", "P1"]).1

/-- The result of serializing the all-null two-row index and loading the
binary set back into a fresh index. -/
def stNulls2Loaded : Except GeoErr IndexState :=
  (geoSerialize stNulls2).bind (loadWithoutAssemble (freshIndex 9))

/-- A second concrete library instance exhibiting the descendant expansion:
every cell c has the single child c * 10 + 1 at any finer resolution, all
error codes are success and every cell is valid. -/
def libChild : GeoLibs :=
  ⟨fun _ => none,
   fun _ _ => 0,
   fun _ => true,
   fun c _ => (0, c),
   fun _ => 0,
   fun _ _ => (0, 1),
   fun c _ => (0, [c * 10 + 1]),
   fun _ _ => (0, 0),
   fun _ _ => (0, [])⟩

/-- A built state for the descendant-expansion run: under libChild the child
of the representative cell 200 is 2001 (stored offsets [8]) while the child of
the cell numbered like the resolution 3 is 31 (stored offsets [7]). -/
def stChild : IndexState :=
  ⟨true, [(31, [7]), (2001, [8])], ⟨[], 0⟩, 4, 9, []⟩

theorem cellOcc_addOffset (m : List (Nat × List Nat)) (c o o' : Nat) :
    cellOcc (addOffset m c o) o' = cellOcc m o' + if o' = o then 1 else 0 := by
  induction m with
  | nil =>
      simp only [addOffset, cellOcc, List.map_cons, List.map_nil, List.sum_cons,
        List.sum_nil, List.count_nil]
      rcases eq_or_ne o' o with rfl | hne
      · simp [List.count_singleton']
      · simp [List.count_singleton', hne, Ne.symm hne]
  | cons p rest ih =>
      by_cases h : p.1 = c
      · have hb : (p.1 == c) = true := beq_iff_eq.mpr h
        simp only [addOffset, hb, if_true, cellOcc, List.map_cons,
          List.sum_cons, List.count_append] at *
        rcases eq_or_ne o' o with rfl | hne
        · simp [List.count_singleton']
          omega
        · simp [List.count_singleton', hne, Ne.symm hne]
      · have hb : (p.1 == c) = false := beq_eq_false_iff_ne.mpr h
        simp only [addOffset, hb, Bool.false_eq_true, if_false, cellOcc,
          List.map_cons, List.sum_cons] at *
        omega

theorem rawLookup_rawWrite (r : RawVec) (o o' : Nat) (s : String) :
    rawLookup (rawWrite r o s) o' = if o' = o then s else rawLookup r o' := by
  by_cases h : o' = o
  · simp [rawLookup, rawWrite, List.find?, h]
  · have h2 : (o == o') = false := beq_eq_false_iff_ne.mpr (fun e => h e.symm)
    simp [rawLookup, rawWrite, List.find?, h2, h]

theorem buildLoop_state (lib : GeoLibs) :
    ∀ (vs : List String) (st : IndexState) (off : Nat) (st' : IndexState),
      buildLoop lib st off vs = (st', none) →
      st'.is_built_ = st.is_built_
    ∧ st'.total_num_rows_ = st.total_num_rows_
    ∧ st'.resolution_ = st.resolution_
    ∧ (∀ o : Nat, off ≤ o → o < off + vs.length →
        st'.null_offsets_.count o
          = st.null_offsets_.count o
            + (if vs.getD (o - off) "" = "" then 1 else 0))
    ∧ (∀ o : Nat, ¬(off ≤ o ∧ o < off + vs.length) →
        st'.null_offsets_.count o = st.null_offsets_.count o)
    ∧ (∀ o : Nat, off ≤ o → o < off + vs.length →
        cellOcc st'.index_data_ o
          = cellOcc st.index_data_ o
            + (if vs.getD (o - off) "" = "" then 0 else 1))
    ∧ (∀ o : Nat, ¬(off ≤ o ∧ o < off + vs.length) →
        cellOcc st'.index_data_ o = cellOcc st.index_data_ o)
    ∧ (∀ o : Nat,
        rawLookup st'.raw_data_ o
          = if off ≤ o ∧ o < off + vs.length ∧ vs.getD (o - off) "" ≠ "" then
              vs.getD (o - off) ""
            else rawLookup st.raw_data_ o) := by
  intro vs
  induction vs with
  | nil =>
      intro st off st' hb
      simp only [buildLoop, Prod.mk.injEq] at hb
      obtain ⟨rfl, -⟩ := hb
      refine ⟨rfl, rfl, rfl, ?_, ?_, ?_, ?_, ?_⟩
      · intro o h1 h2; simp only [List.length_nil] at h2; omega
      · intro o _; rfl
      · intro o h1 h2; simp only [List.length_nil] at h2; omega
      · intro o _; rfl
      · intro o
        have hc : ¬(off ≤ o ∧ o < off + ([] : List String).length
            ∧ ([] : List String).getD (o - off) "" ≠ "") := by
          rintro ⟨h1, h2, -⟩
          simp only [List.length_nil] at h2; omega
        rw [if_neg hc]
  | cons v rest ih =>
      intro st off st' hb
      rw [buildLoop] at hb
      by_cases hv : v = ""
      · rw [if_pos hv] at hb
        obtain ⟨f1, f2, f3, n_in, n_out, c_in, c_out, hraw⟩ := ih _ _ _ hb
        refine ⟨f1, f2, f3, ?_, ?_, ?_, ?_, ?_⟩
        · intro o h1 h2
          rcases Nat.eq_or_lt_of_le h1 with heq | hlt
          · subst heq
            have h3 := n_out off (by omega)
            simp only [List.count_append] at h3
            have h4 : off - off = 0 := by omega
            rw [h3, h4, List.getD_cons_zero, if_pos hv,
              List.count_singleton']
            simp
          · have h3 := n_in o (by omega) (by
              simp only [List.length_cons] at h2 ⊢; omega)
            simp only [List.count_append] at h3
            have h4 : o - off = (o - (off + 1)) + 1 := by omega
            rw [h3, h4, List.getD_cons_succ, List.count_singleton']
            have h5 : (off = o) = False := by simp; omega
            simp [h5]
        · intro o hno
          simp only [List.length_cons] at hno
          have h3 := n_out o (by omega)
          simp only [List.count_append, List.count_singleton'] at h3
          have h5 : (off = o) = False := by simp; intro e; exact hno ⟨by omega, by omega⟩
          simp only [h5, if_false, Nat.add_zero] at h3
          exact h3
        · intro o h1 h2
          rcases Nat.eq_or_lt_of_le h1 with heq | hlt
          · subst heq
            have h3 := c_out off (by omega)
            have h4 : off - off = 0 := by omega
            rw [h3, h4, List.getD_cons_zero, if_pos hv]
            simp
          · have h3 := c_in o (by omega) (by
              simp only [List.length_cons] at h2 ⊢; omega)
            have h4 : o - off = (o - (off + 1)) + 1 := by omega
            rw [h3, h4, List.getD_cons_succ]
        · intro o hno
          simp only [List.length_cons] at hno
          exact c_out o (by omega)
        · intro o
          rw [hraw o]
          by_cases hoff : o = off
          · subst hoff
            have hc1 : ¬(o + 1 ≤ o ∧ o < o + 1 + rest.length
                ∧ rest.getD (o - (o + 1)) "" ≠ "") := by rintro ⟨h1, -, -⟩; omega
            have hc2 : ¬(o ≤ o ∧ o < o + (v :: rest).length
                ∧ (v :: rest).getD (o - o) "" ≠ "") := by
              rintro ⟨-, -, h3⟩
              have h4 : o - o = 0 := by omega
              rw [h4, List.getD_cons_zero] at h3
              exact h3 hv
            rw [if_neg hc1, if_neg hc2]
          · by_cases hwin : off + 1 ≤ o ∧ o < off + 1 + rest.length
          
            · have h4 : o - off = (o - (off + 1)) + 1 := by omega
              by_cases hne : rest.getD (o - (off + 1)) "" = ""
              · have hc1 : ¬(off + 1 ≤ o ∧ o < off + 1 + rest.length
                    ∧ rest.getD (o - (off + 1)) "" ≠ "") := by
                  rintro ⟨-, -, h3⟩; exact h3 hne
                have hc2 : ¬(off ≤ o ∧ o < off + (v :: rest).length
                    ∧ (v :: rest).getD (o - off) "" ≠ "") := by
                  rintro ⟨-, -, h3⟩
                  rw [h4, List.getD_cons_succ] at h3
                  exact h3 hne
                rw [if_neg hc1, if_neg hc2]
              · have hc1 : off + 1 ≤ o ∧ o < off + 1 + rest.length
                    ∧ rest.getD (o - (off + 1)) "" ≠ "" := ⟨hwin.1, hwin.2, hne⟩
                have hc2 : off ≤ o ∧ o < off + (v :: rest).length
                    ∧ (v :: rest).getD (o - off) "" ≠ "" := by
                  refine ⟨by omega, by simp only [List.length_cons]; omega, ?_⟩
                  rw [h4, List.getD_cons_succ]; exact hne
                rw [if_pos hc1, if_pos hc2, h4, List.getD_cons_succ]
            · have hc1 : ¬(off + 1 ≤ o ∧ o < off + 1 + rest.length
                  ∧ rest.getD (o - (off + 1)) "" ≠ "") := by
                rintro ⟨h1, h2, -⟩; exact hwin ⟨h1, h2⟩
              have hc2 : ¬(off ≤ o ∧ o < off + (v :: rest).length
                  ∧ (v :: rest).getD (o - off) "" ≠ "") := by
                rintro ⟨h1, h2, -⟩
                simp only [List.length_cons] at h2
                exact hwin ⟨by omega, by omega⟩
              rw [if_neg hc1, if_neg hc2]
      · rw [if_neg hv] at hb
        cases hdr : decodeAndRepresent lib st.resolution_ v with
        | error e => rw [hdr] at hb; simp at hb
        | ok cell =>
            rw [hdr] at hb
            obtain ⟨f1, f2, f3, n_in, n_out, c_in, c_out, hraw⟩ := ih _ _ _ hb
            refine ⟨f1, f2, f3, ?_, ?_, ?_, ?_, ?_⟩
            · intro o h1 h2
              rcases Nat.eq_or_lt_of_le h1 with heq | hlt
              · subst heq
                have h3 := n_out off (by omega)
                have h4 : off - off = 0 := by omega
                rw [h3, h4, List.getD_cons_zero, if_neg hv]
                simp
              · have h3 := n_in o (by omega) (by
                  simp only [List.length_cons] at h2 ⊢; omega)
                have h4 : o - off = (o - (off + 1)) + 1 := by omega
                rw [h3, h4, List.getD_cons_succ]
            · intro o hno
              simp only [List.length_cons] at hno
              exact n_out o (by omega)
            · intro o h1 h2
              rcases Nat.eq_or_lt_of_le h1 with heq | hlt
              · subst heq
                have h3 := c_out off (by omega)
                rw [h3]
                simp only [cellOcc_addOffset]
                have h4 : off - off = 0 := by omega
                rw [h4, List.getD_cons_zero, if_neg hv]
                simp
              · have h3 := c_in o (by omega) (by
                  simp only [List.length_cons] at h2 ⊢; omega)
                rw [h3]
                simp only [cellOcc_addOffset]
                have h4 : o - off = (o - (off + 1)) + 1 := by omega
                have h5 : (o = off) = False := by simp; omega
                rw [h4, List.getD_cons_succ]
                simp only [h5, if_false]
                omega
            · intro o hno
              simp only [List.length_cons] at hno
              have h3 := c_out o (by omega)
              rw [h3]
              simp only [cellOcc_addOffset]
              have h5 : (o = off) = False := by
                simp; intro e; exact hno ⟨by omega, by omega⟩
              simp [h5]
            · intro o
              rw [hraw o]
              by_cases hoff : o = off
              · subst hoff
                have hc1 : ¬(o + 1 ≤ o ∧ o < o + 1 + rest.length
                    ∧ rest.getD (o - (o + 1)) "" ≠ "") := by
                  rintro ⟨h1, -, -⟩; omega
                have hc2 : o ≤ o ∧ o < o + (v :: rest).length
                    ∧ (v :: rest).getD (o - o) "" ≠ "" := by
                  refine ⟨le_refl o, by simp only [List.length_cons]; omega, ?_⟩
                  have h4 : o - o = 0 := by omega
                  rw [h4, List.getD_cons_zero]; exact hv
                rw [if_neg hc1, if_pos hc2, rawLookup_rawWrite]
                have h4 : o - o = 0 := by omega
                rw [h4, List.getD_cons_zero]
                simp
              · rw [rawLookup_rawWrite]
                simp only [hoff, if_false]
                by_cases hwin : off + 1 ≤ o ∧ o < off + 1 + rest.length
                · have h4 : o - off = (o - (off + 1)) + 1 := by omega
                  by_cases hne : rest.getD (o - (off + 1)) "" = ""
                  · have hc1 : ¬(off + 1 ≤ o ∧ o < off + 1 + rest.length
                        ∧ rest.getD (o - (off + 1)) "" ≠ "") := by
                      rintro ⟨-, -, h3⟩; exact h3 hne
                    have hc2 : ¬(off ≤ o ∧ o < off + (v :: rest).length
                        ∧ (v :: rest).getD (o - off) "" ≠ "") := by
                      rintro ⟨-, -, h3⟩
                      rw [h4, List.getD_cons_succ] at h3
                      exact h3 hne
                    rw [if_neg hc1, if_neg hc2]
                  · have hc1 : off + 1 ≤ o ∧ o < off + 1 + rest.length
                        ∧ rest.getD (o - (off + 1)) "" ≠ "" :=
                      ⟨hwin.1, hwin.2, hne⟩
                    have hc2 : off ≤ o ∧ o < off + (v :: rest).length
                        ∧ (v :: rest).getD (o - off) "" ≠ "" := by
                      refine ⟨by omega, by simp only [List.length_cons]; omega, ?_⟩
                      rw [h4, List.getD_cons_succ]; exact hne
                    rw [if_pos hc1, if_pos hc2, h4, List.getD_cons_succ]
                · have hc1 : ¬(off + 1 ≤ o ∧ o < off + 1 + rest.length
                      ∧ rest.getD (o - (off + 1)) "" ≠ "") := by
                    rintro ⟨h1, h2, -⟩; exact hwin ⟨h1, h2⟩
                  have hc2 : ¬(off ≤ o ∧ o < off + (v :: rest).length
                      ∧ (v :: rest).getD (o - off) "" ≠ "") := by
                    rintro ⟨h1, h2, -⟩
                    simp only [List.length_cons] at h2
                    exact hwin ⟨by omega, by omega⟩
                  rw [if_neg hc1, if_neg hc2]

theorem geoBuild_state (lib : GeoLibs) (st : IndexState) (vs : List String)
    (st' : IndexState) (h : geoBuild lib st vs = (st', none)) :
    st'.is_built_ = true
  ∧ st'.total_num_rows_ = vs.length
  ∧ st'.resolution_ = st.resolution_
  ∧ (∀ o : Nat, o < vs.length →
      st'.null_offsets_.count o
        = st.null_offsets_.count o + (if vs.getD o "" = "" then 1 else 0))
  ∧ (∀ o : Nat, ¬o < vs.length →
      st'.null_offsets_.count o = st.null_offsets_.count o)
  ∧ (∀ o : Nat, o < vs.length →
      cellOcc st'.index_data_ o
        = cellOcc st.index_data_ o + (if vs.getD o "" = "" then 0 else 1))
  ∧ (∀ o : Nat, ¬o < vs.length →
      cellOcc st'.index_data_ o = cellOcc st.index_data_ o)
  ∧ (∀ o : Nat,
      rawLookup st'.raw_data_ o
        = if o < vs.length ∧ vs.getD o "" ≠ "" then vs.getD o ""
          else rawLookup st.raw_data_ o) := by
  unfold geoBuild at h
  cases hb : buildLoop lib st 0 vs with
  | mk st1 oe =>
      rw [hb] at h
      cases oe with
      | some e => simp at h
      | none =>
          simp only [Prod.mk.injEq] at h
          obtain ⟨h1, -⟩ := h
          subst h1
          obtain ⟨f1, f2, f3, n_in, n_out, c_in, c_out, hraw⟩ :=
            buildLoop_state lib vs st 0 st1 hb
          refine ⟨rfl, rfl, by simpa using f3, ?_, ?_, ?_, ?_, ?_⟩
          · intro o ho
            have h3 := n_in o (by omega) (by omega)
            simpa using h3
          · intro o ho
            have h3 := n_out o (by omega)
            simpa using h3
          · intro o ho
            have h3 := c_in o (by omega) (by omega)
            simpa using h3
          · intro o ho
            have h3 := c_out o (by omega)
            simpa using h3
          · intro o
            have h3 := hraw o
            simpa using h3

/-- C3: after a successful Build(N, values) on a fresh index, total_num_rows_
is N, is_built_ is set, and every row offset below N occurs exactly once
across the null-offset list and the offset lists of the cell map: offsets of
empty inputs are in the null set (and nowhere in the map), all other offsets
sit in exactly one cell's list. -/
theorem c3_build_partition (lib : GeoLibs) (res : Int) (values : List String)
    (st' : IndexState)
    (h : geoBuild lib (freshIndex res) values = (st', none)) :
    st'.total_num_rows_ = values.length
  ∧ st'.is_built_ = true
  ∧ (∀ o : Nat, o < values.length →
      st'.null_offsets_.count o + cellOcc st'.index_data_ o = 1
      ∧ (o ∈ st'.null_offsets_ ↔ values.getD o "" = "")
      ∧ (values.getD o "" ≠ "" → cellOcc st'.index_data_ o = 1)) := by
  obtain ⟨f1, f2, f3, n_in, n_out, c_in, c_out, hraw⟩ :=
    geoBuild_state lib (freshIndex res) values st' h
  refine ⟨f2, f1, ?_⟩
  intro o ho
  have hn := n_in o ho
  have hc := c_in o ho
  have hz1 : (freshIndex res).null_offsets_.count o = 0 := rfl
  have hz2 : cellOcc (freshIndex res).index_data_ o = 0 := rfl
  rw [hz1] at hn
  rw [hz2] at hc
  have hmem : o ∈ st'.null_offsets_ ↔ 1 ≤ st'.null_offsets_.count o :=
    List.one_le_count_iff.symm
  by_cases he : values.getD o "" = ""
  · rw [if_pos he] at hn
    rw [if_pos he] at hc
    refine ⟨by omega, ?_, fun hne => absurd he hne⟩
    rw [hmem, hn]
    exact ⟨fun _ => he, fun _ => by omega⟩
  · rw [if_neg he] at hn
    rw [if_neg he] at hc
    refine ⟨by omega, ?_, fun _ => by omega⟩
    rw [hmem, hn]
    exact ⟨fun h2 => by omega, fun h2 => absurd h2 he⟩

/-- C7: on an index successfully built from a fresh state, Reverse_Lookup
returns exactly the raw WKB bytes supplied for that row (the empty string for
a null row) for every offset below total_num_rows_, and fails with the
out-of-range assert for every offset at or past total_num_rows_. -/
theorem c7_reverse_lookup (lib : GeoLibs) (res : Int) (values : List String)
    (st' : IndexState)
    (h : geoBuild lib (freshIndex res) values = (st', none)) :
    (∀ o : Nat, o < values.length →
      reverseLookup st' o = .ok (values.getD o ""))
  ∧ (∀ o : Nat, values.length ≤ o →
      reverseLookup st' o = .error .outOfRange) := by
  obtain ⟨f1, f2, f3, n_in, n_out, c_in, c_out, hraw⟩ :=
    geoBuild_state lib (freshIndex res) values st' h
  constructor
  · intro o ho
    have hr := hraw o
    rw [reverseLookup, f1, if_pos rfl, if_pos (by omega : o < st'.total_num_rows_)]
    by_cases he : values.getD o "" = ""
    · have hc : ¬(o < values.length ∧ values.getD o "" ≠ "") := by
        rintro ⟨-, h3⟩; exact h3 he
      rw [if_neg hc] at hr
      have hfresh : rawLookup (freshIndex res).raw_data_ o = "" := rfl
      rw [hr, hfresh, he]
    · rw [if_pos ⟨ho, he⟩] at hr
      rw [hr]
  · intro o ho
    rw [reverseLookup, f1, if_pos rfl, if_neg (by omega : ¬o < st'.total_num_rows_)]

theorem setAll_cons (bm : List Bool) (o : Nat) (rest : List Nat) (b : Bool) :
    setAll bm (o :: rest) b = setAll (bm.set o b) rest b := rfl

theorem setAll_length (offs : List Nat) (bm : List Bool) (b : Bool) :
    (setAll bm offs b).length = bm.length := by
  induction offs generalizing bm with
  | nil => rfl
  | cons o rest ih => rw [setAll_cons, ih, List.length_set]

theorem setAll_map_not (offs : List Nat) (bm : List Bool) :
    setAll (bm.map not) offs false = (setAll bm offs true).map not := by
  induction offs generalizing bm with
  | nil => rfl
  | cons o rest ih =>
      rw [setAll_cons, setAll_cons, ← ih]
      congr 1
      rw [List.map_set]
      rfl

theorem inQueries_ok_length (lib : GeoLibs) (st : IndexState) (b : Bool) :
    ∀ (vs : List String) (bm out : List Bool),
      inQueries lib st b bm vs = .ok out → out.length = bm.length := by
  intro vs
  induction vs with
  | nil =>
      intro bm out h
      simp only [inQueries, Except.ok.injEq] at h
      rw [← h]
  | cons v rest ih =>
      intro bm out h
      rw [inQueries] at h
      cases hc : collectQuery lib st v with
      | error e => rw [hc] at h; simp [bind, Except.bind] at h
      | ok offs =>
          rw [hc] at h
          simp only [bind, Except.bind] at h
          have := ih _ _ h
          rw [this, setAll_length]

theorem inQueries_not (lib : GeoLibs) (st : IndexState) :
    ∀ (vs : List String) (bm out : List Bool),
      inQueries lib st true bm vs = .ok out →
      inQueries lib st false (bm.map not) vs = .ok (out.map not) := by
  intro vs
  induction vs with
  | nil =>
      intro bm out h
      simp only [inQueries, Except.ok.injEq] at h ⊢
      rw [← h]
  | cons v rest ih =>
      intro bm out h
      rw [inQueries] at h ⊢
      cases hc : collectQuery lib st v with
      | error e => rw [hc] at h; simp [bind, Except.bind] at h
      | ok offs =>
          rw [hc] at h
          have h2 : inQueries lib st true (setAll bm offs true) rest = .ok out := by
            simpa [bind, Except.bind] using h
          have h3 := ih _ _ h2
          rw [← setAll_map_not] at h3
          simpa [bind, Except.bind, hc] using h3

/-- C9: whenever In returns a bitmap, NotIn on the same built index and the
same query set returns exactly its pointwise complement (so their union is
all-ones over the total_num_rows_ positions and their intersection is empty),
and the bitmap is total_num_rows_ bits long. -/
theorem c9_in_notin_complement (lib : GeoLibs) (st : IndexState)
    (values : List String) (bm : List Bool)
    (h : geoIn lib st values = .ok bm) :
    bm.length = st.total_num_rows_
  ∧ geoNotIn lib st values = .ok (bm.map not) := by
  unfold geoIn at h
  by_cases hbuilt : st.is_built_
  · rw [if_pos hbuilt] at h
    constructor
    · rw [inQueries_ok_length lib st true values _ bm h, List.length_replicate]
    · unfold geoNotIn
      rw [if_pos hbuilt]
      have h2 := inQueries_not lib st values _ bm h
      rw [List.map_replicate] at h2
      simpa using h2
  · rw [if_neg hbuilt] at h
    simp at h

theorem collectFieldDatas_length (batches : List FieldBatch) :
    (collectFieldDatas batches).length
      = ((batches.filter (fun b => b.dtype == DataType.GEOSPATIAL)).map
          (fun b => b.rows.length)).sum := by
  induction batches with
  | nil => rfl
  | cons b rest ih =>
      by_cases hb : b.dtype = DataType.GEOSPATIAL
      · rw [collectFieldDatas, if_pos hb]
        have hf : (b :: rest).filter (fun b => b.dtype == DataType.GEOSPATIAL)
            = b :: rest.filter (fun b => b.dtype == DataType.GEOSPATIAL) := by
          simp [List.filter_cons, hb]
        rw [hf, List.length_append, List.length_map, ih, List.map_cons,
          List.sum_cons]
      · rw [collectFieldDatas, if_neg hb]
        have hf : (b :: rest).filter (fun b => b.dtype == DataType.GEOSPATIAL)
            = rest.filter (fun b => b.dtype == DataType.GEOSPATIAL) := by
          simp [List.filter_cons, hb]
        rw [hf, ih]

/-- C10: BuildWithFieldData silently skips any batch whose declared data type
is not GEOSPATIAL — prepending such a batch leaves the whole build result
unchanged, so its rows are absent from the built index — and on success
total_num_rows_ counts exactly the rows of the geospatial batches. -/
theorem c10_non_geospatial_skipped :
    (∀ (lib : GeoLibs) (st : IndexState) (b : FieldBatch)
        (batches : List FieldBatch),
      b.dtype ≠ DataType.GEOSPATIAL →
      buildWithFieldData lib st (b :: batches) = buildWithFieldData lib st batches)
  ∧ (∀ (lib : GeoLibs) (st : IndexState) (batches : List FieldBatch)
        (st1 : IndexState),
      buildWithFieldData lib st batches = (st1, none) →
      st1.total_num_rows_
        = ((batches.filter (fun b => b.dtype == DataType.GEOSPATIAL)).map
            (fun b => b.rows.length)).sum) := by
  constructor
  · intro lib st b batches hb
    unfold buildWithFieldData
    rw [collectFieldDatas, if_neg hb]
  · intro lib st batches st1 h
    unfold buildWithFieldData at h
    have h2 := (geoBuild_state lib st _ st1 h).2.1
    rw [h2, collectFieldDatas_length]

theorem c10_non_geospatial_skipped_witness :
    buildWithFieldData libTest (freshIndex 9)
        [⟨DataType.OTHER, [(true, "junk")]⟩,
         ⟨DataType.GEOSPATIAL, [(true, "P1")]⟩]
      = buildWithFieldData libTest (freshIndex 9)
        [⟨DataType.GEOSPATIAL, [(true, "P1")]⟩] :=
  c10_non_geospatial_skipped.1 libTest (freshIndex 9)
    ⟨DataType.OTHER, [(true, "junk")]⟩
    [⟨DataType.GEOSPATIAL, [(true, "P1")]⟩] (by decide)

theorem c3_build_partition_witness :
    stNP.null_offsets_.count 1 + cellOcc stNP.index_data_ 1 = 1 :=
  ((c3_build_partition libTest 9 ["", "P1"] stNP (by decide)).2.2 1
    (by decide)).1

theorem c7_reverse_lookup_witness :
    reverseLookup stNP 1 = .ok "P1" ∧ reverseLookup stNP 2 = .error .outOfRange :=
  ⟨by
    have h := (c7_reverse_lookup libTest 9 ["", "P1"] stNP (by decide)).1 1
      (by decide)
    simpa using h,
   (c7_reverse_lookup libTest 9 ["", "P1"] stNP (by decide)).2 2 (by decide)⟩

theorem c9_in_notin_complement_witness :
    geoNotIn libTest stP1 [] = .ok [true] := by
  have h := (c9_in_notin_complement libTest stP1 [] [false] rfl).2
  simpa using h

/-- C1: on a built index, In never returns the claimed candidate bitmap for a
nonempty query set: the first ancestor lookup runs AssertInfo(err = Success)
whose assignment makes the asserted condition zero, so In throws (here on a
one-point index queried with its own point, where the claim expects bit 0
set). Moreover the descendant expansion of the same loop passes rep_res, the
resolution number, as the cell argument of cellToChildren: run in isolation
on a state that stores offsets [8] under the only child of the representative
cell 200 and offsets [7] under the only child of the cell numbered like the
resolution 3, it collects [7], not the [8] the claim describes. -/
theorem c1_in_throws_and_child_swap :
    geoIn libTest stP1 ["P1"] = .error .assertFail
  ∧ inChildLoop libChild stChild 200 3 4 1 = .ok [7]
  ∧ lookupCell stChild.index_data_
      ((libChild.cellToChildren 200 4).2.headD 0) = [8] :=
  ⟨rfl, rfl, rfl⟩

/-- C2: the Serialize / LoadWithoutAssemble round trip loses the null set: an
index built from two null rows reports IsNull = [true, true], but the index
loaded from its serialized binary set holds an empty null_offsets_ (the load
memcpys the null-offset bytes into a vector that was never resized) and
reports IsNull = [false, false]. -/
theorem c2_roundtrip_loses_nulls :
    stNulls2.null_offsets_ = [0, 1]
  ∧ geoIsNull stNulls2 = .ok [true, true]
  ∧ stNulls2Loaded.map (fun st => st.null_offsets_) = .ok []
  ∧ stNulls2Loaded.map geoIsNull = .ok (.ok [false, false]) :=
  ⟨rfl, rfl, rfl, rfl⟩

/-- C4: a per-row failure aborts Build with the underlying error but does not
roll back: building a fresh index over a null row followed by an undecodable
row stops at the second row and leaves the first row's update visible,
null_offsets_ = [0] instead of the pre-build empty state. -/
theorem c4_failed_build_leaves_partial_state :
    geoBuild libTest (freshIndex 9) ["", "BAD"]
      = ({ freshIndex 9 with null_offsets_ := [0] }, some .assertFail)
  ∧ ({ freshIndex 9 with null_offsets_ := [0] } : IndexState)
      ≠ freshIndex 9 := by decide

/-- C5: after Build, GetIndexDataSize undercounts the bytes SerializeIndexData
writes: raw_data_ was never resized by Build, so the per-row 4-byte size
fields and the wkb payloads are missing from the total — for the one-point
index the size computed is 16 while the serializer emits 22 bytes. -/
theorem c5_buffer_undersized :
    getIndexDataSize stP1 = 16
  ∧ (serializeIndexData stP1).length = 22
  ∧ getIndexDataSize stP1 ≠ (serializeIndexData stP1).length := by decide

/-- C6: representative-cell derivation for a LineString with at least one
vertex never runs the vertex-to-cell conversion and parent reduction the claim
describes: the vertex loop reads each point through the null OGRPoint scratch
pointer, so the first vertex access dereferences null. -/
theorem c6_linestring_null_scratch :
    getRepresentH3Index libTest 9
      (some (Geometry.lineString [(3, 4), (4, 4)])) = .error .nullDeref := rfl

/-- C8 counterexample: a second Build(n, values) on an already built index is
not rejected — it completes without error and mutates the built state. -/
theorem c8_second_build_not_rejected :
    stP1.is_built_ = true
  ∧ (geoBuild libTest stP1 ["P1"]).2 = none
  ∧ (geoBuild libTest stP1 ["P1"]).1 ≠ stP1 := by decide

/-- C8 amended: Build(Config) on a built index returns at once without
touching the state, but Build(n, values) — and BuildWithFieldData, which
delegates to it — performs no is_built_ check at all: a repeated build runs
and mutates the index (here duplicating offset 0 under cell 109). -/
theorem c8_amended_build_checks :
    (∀ (lib : GeoLibs) (st : IndexState) (p : Bool)
        (batches : List FieldBatch),
      st.is_built_ = true → buildFromConfig lib st p batches = (st, none))
  ∧ (geoBuild libTest stP1 ["P1"]).1.index_data_ = [(109, [0, 0])] := by
  constructor
  · intro lib st p batches hbuilt
    unfold buildFromConfig
    rw [hbuilt]
    simp
  · decide

theorem c8_amended_build_checks_witness :
    buildFromConfig libTest stP1 true [] = (stP1, none) :=
  c8_amended_build_checks.1 libTest stP1 true [] (by decide)
